import Mathlib

/-!
Verification of the test-war repository: a shallow embedding of the
authoritative room server (src/src/rooms/GameRoom.ts, plus the hexSelect
handler quoted verbatim in the repository's hex-selection implementation
notes, src/unnamed/part_002) and of the client-side connection-resilience
controller (src/src/hooks/useColyseus.ts), together with theorems settling
the behavioural claims about them.

Conventions of the embedding:
- A JS Map keyed by strings is an insertion-ordered association list with
  distinct keys; set replaces in place, delete removes the key, size is the
  list length.
- JS numbers used as positions are carried as rationals; no arithmetic is
  ever performed on them, so the representation is irrelevant.
- Timestamps (Date.now values) are naturals on a simulated clock.
- The asynchronous connect call of the hook is modelled as one atomic step
  parameterised by the outcome of the establishment call; the in-flight
  flag is raised and lowered inside that step, mirroring the try/finally.
-/

/-- Lookup in a string-keyed association list, mirroring JS Map.get
(first entry with the key, none when absent). -/
def mapGet {α : Type} (m : List (String × α)) (k : String) : Option α :=
  match m with
  | [] => none
  | (k', v) :: rest => if k' = k then some v else mapGet rest k

/-- Insertion mirroring JS Map.set: replace the entry in place when the key
is present, append otherwise. -/
def mapSet {α : Type} (m : List (String × α)) (k : String) (v : α) :
    List (String × α) :=
  match m with
  | [] => [(k, v)]
  | (k', v') :: rest =>
      if k' = k then (k, v) :: rest else (k', v') :: mapSet rest k v

/-- Deletion mirroring JS Map.delete: remove the entry with the key. -/
def mapDelete {α : Type} (m : List (String × α)) (k : String) :
    List (String × α) :=
  match m with
  | [] => []
  | (k', v') :: rest =>
      if k' = k then mapDelete rest k else (k', v') :: mapDelete rest k

/-- The keys of the association list are pairwise distinct (always true for
a list built from the empty map by mapSet and mapDelete). -/
def keysNodup {α : Type} (m : List (String × α)) : Prop :=
  (m.map Prod.fst).Nodup

/-!
Server-side room model, from src/src/rooms/GameRoom.ts.  The hexGrid field
and the hexSelect handler are from the handler quoted verbatim in the
implementation notes src/unnamed/part_002 (they are not present in the
GameRoom.ts copy under src/src/rooms, which the notes extend).
-/

/-- Player schema (GameRoom.ts lines 4-22).  Positions are JS numbers that
are only ever stored verbatim, carried here as rationals. -/
structure Player where
  name : String
  x : ℚ
  y : ℚ
  status : String
  joinedAt : Nat
  color : String
deriving DecidableEq, Repr

/-- HexCell schema (part_002 lines 13-18): axial coordinates, the session
id of the selecting player (empty string = unselected) and its color. -/
structure HexCell where
  q : Int
  r : Int
  selectedBy : String
  color : String
deriving DecidableEq, Repr

/-- MyState schema (GameRoom.ts lines 24-33 extended with the hexGrid map
of part_002 lines 23-28).  The hexGrid is keyed by the string q,r. -/
structure MyState where
  players : List (String × Player)
  hexGrid : List (String × HexCell)
  gameStatus : String
  playerCount : Nat
deriving DecidableEq, Repr

/-- Outbound events produced by the room handlers.  The welcome event is
sent to the joining client only; all others are broadcasts. -/
inductive OutEvent
  | stateUpdate (playerCount : Nat) (gameStatus : String) (playersCount : Nat)
  | playerUpdate (players : List (String × Player))
  | chat (sessionId : String) (message : String) (timestamp : Nat)
  | hexUpdate (q : Int) (r : Int) (selectedBy : String) (color : String)
      (playerName : String)
  | welcome (sessionId : String) (playerName : String) (roomId : String)
deriving DecidableEq, Repr

/-- The fixed eight-entry color palette (GameRoom.ts lines 76-85). -/
def playerColors : List String :=
  ["#3b82f6", "#ef4444", "#10b981", "#f59e0b",
   "#8b5cf6", "#f97316", "#06b6d4", "#84cc16"]

/-- Fresh room state as set up by onCreate (GameRoom.ts lines 36-43); the
grid contents are irrelevant to the join/leave claims and start empty. -/
def initMyState : MyState :=
  { players := [], hexGrid := [], gameStatus := "waiting", playerCount := 0 }

/-- onJoin (GameRoom.ts lines 74-133).  The name option falls back to the
session-id-derived default when absent or empty (JS falsiness of the empty
string under the or-operator); the color index is the players-map size
before insertion, mod the palette length. -/
def onJoin (s : MyState) (sid : String) (nameOpt : Option String)
    (now : Nat) (roomId : String) : MyState × List OutEvent :=
  let name := match nameOpt with
    | some n => if n = "" then "Player_" ++ sid.take 6 else n
    | none => "Player_" ++ sid.take 6
  let colorIndex := s.players.length % playerColors.length
  let player : Player :=
    { name := name, x := 0, y := 0, status := "idle", joinedAt := now,
      color := playerColors.getD colorIndex "" }
  let players2 := mapSet s.players sid player
  let playerCount2 := players2.length
  let gameStatus2 := if 2 ≤ playerCount2 then "active" else "waiting"
  ({ s with players := players2, playerCount := playerCount2,
            gameStatus := gameStatus2 },
   [.stateUpdate playerCount2 gameStatus2 players2.length,
    .playerUpdate players2,
    .welcome sid player.name roomId])

/-- onLeave (GameRoom.ts lines 135-165).  The departing entry is deleted,
the count recomputed, and the status set to waiting only when the count
drops below 2; the hexGrid is untouched. -/
def onLeave (s : MyState) (sid : String) : MyState × List OutEvent :=
  let players2 := mapDelete s.players sid
  let playerCount2 := players2.length
  let gameStatus2 := if playerCount2 < 2 then "waiting" else s.gameStatus
  ({ s with players := players2, playerCount := playerCount2,
            gameStatus := gameStatus2 },
   [.stateUpdate playerCount2 gameStatus2 players2.length,
    .playerUpdate players2])

/-- Move handler (GameRoom.ts lines 47-54): requires an existing player for
the sender, sets position and status moving; neither branch broadcasts. -/
def handleMove (s : MyState) (sid : String) (x y : ℚ) :
    MyState × List OutEvent :=
  match mapGet s.players sid with
  | some p =>
      ({ s with players :=
          mapSet s.players sid { p with x := x, y := y, status := "moving" } },
       [])
  | none => (s, [])

/-- Status handler (GameRoom.ts lines 66-71): requires an existing player,
stores the status string verbatim; neither branch broadcasts. -/
def handleStatus (s : MyState) (sid : String) (status : String) :
    MyState × List OutEvent :=
  match mapGet s.players sid with
  | some p =>
      ({ s with players := mapSet s.players sid { p with status := status } },
       [])
  | none => (s, [])

/-- Chat handler (GameRoom.ts lines 57-63): no existence check, always
broadcasts sender id, text and server timestamp. -/
def handleChat (s : MyState) (sid : String) (message : String) (now : Nat) :
    MyState × List OutEvent :=
  (s, [.chat sid message now])

/-- Grid key for axial coordinates, mirroring the template q,r. -/
def hexKeyOf (q r : Int) : String := toString q ++ "," ++ toString r

/-- hexSelect handler (part_002 lines 33-59): requires an existing cell
for the key of (q,r) and an existing player for the sender; toggles the
sender's own cell to empty, otherwise selects or steals the cell, then
broadcasts a hexUpdate whose playerName is the sender's name when the new
occupancy is non-empty (JS truthiness of the selectedBy string). -/
def handleHexSelect (s : MyState) (sid : String) (q r : Int) :
    MyState × List OutEvent :=
  match mapGet s.hexGrid (hexKeyOf q r), mapGet s.players sid with
  | some hexCell, some player =>
      let cell2 :=
        if hexCell.selectedBy = sid then
          { hexCell with selectedBy := "", color := "" }
        else
          { hexCell with selectedBy := sid, color := player.color }
      ({ s with hexGrid := mapSet s.hexGrid (hexKeyOf q r) cell2 },
       [.hexUpdate q r cell2.selectedBy cell2.color
          (if cell2.selectedBy = "" then "" else player.name)])
  | _, _ => (s, [])

/-!
Client-side connection-resilience controller, from
src/src/hooks/useColyseus.ts.  The hook's refs and the observable status
are collected in one record; the asynchronous connect function is one
atomic step parameterised by the outcome of the join call.  The
display-only classification of error messages (lines 299-310) does not
alter control flow and is abstracted to a fixed message; teardown during
an in-flight attempt is not needed by any claim and is not modelled.
-/

/-- The observable connection phase (line 5 of the hook). -/
inductive ConnStatus
  | disconnected
  | connecting
  | connected
  | error
  | reconnecting
deriving DecidableEq, Repr

/-- Hook options (lines 7-11 and 47-51): auto-reconnect flag, fixed
reconnect interval, and maximum automatic reconnect attempts. -/
structure HookOptions where
  autoReconnect : Bool
  reconnectInterval : Nat
  maxReconnectAttempts : Nat
deriving DecidableEq, Repr

/-- Defaults of the hook options (lines 48-50). -/
def defaultHookOptions : HookOptions :=
  { autoReconnect := false, reconnectInterval := 10000,
    maxReconnectAttempts := 3 }

/-- The controller state: the observable status and error, whether a room
instance is held (roomRef), and the mutable refs of lines 40-45.  The two
raw timers are a pending-reconnect flag (reconnectTimeoutRef) and the
scheduled circuit-breaker counter reset with its wait time; the latter is
a bare setTimeout that no cleanup path cancels. -/
structure HookState where
  connectionStatus : ConnStatus
  errorMsg : Option String
  roomRef : Bool
  reconnectAttempts : Nat
  isConnecting : Bool
  shouldReconnect : Bool
  lastConnectionAttempt : Nat
  connectionFailureCount : Nat
  reconnectTimeoutPending : Bool
  failureResetPending : Option Nat
deriving DecidableEq, Repr

/-- State at mount: all refs at their initial values (lines 40-45),
shouldReconnect true as set by the mount effect (line 376). -/
def initHookState : HookState :=
  { connectionStatus := .disconnected, errorMsg := none, roomRef := false,
    reconnectAttempts := 0, isConnecting := false, shouldReconnect := true,
    lastConnectionAttempt := 0, connectionFailureCount := 0,
    reconnectTimeoutPending := false, failureResetPending := none }

/-- Backoff delay in milliseconds awaited before the attempt whose current
reconnect-attempt count is n (lines 172-177): the exponential formula is
applied only when n exceeds zero; the initial attempt waits nothing. -/
def backoffDelayMs (n : Nat) : ℚ :=
  if 0 < n then min (2000 * (3 / 2 : ℚ) ^ n) 15000 else 0

/-- scheduleReconnect (lines 330-343): bail out when a timer is already
pending or reconnection is disabled; otherwise bump the attempt counter,
show reconnecting, and arm the timer. -/
def scheduleReconnect (s : HookState) : HookState :=
  if s.reconnectTimeoutPending || !s.shouldReconnect then s
  else
    { s with reconnectAttempts := s.reconnectAttempts + 1,
             connectionStatus := .reconnecting,
             reconnectTimeoutPending := true }

/-- How a connect request resolved. -/
inductive ConnectResult
  | droppedInFlight
  | droppedDisabled
  | droppedRateLimit
  | refusedCircuitBreaker (waitTimeMs : Nat)
  | attempted (backoffMs : ℚ) (success : Bool)
deriving DecidableEq, Repr

/-- The request led to an actual connection attempt. -/
def ConnectResult.isAttempt : ConnectResult → Bool
  | .attempted _ _ => true
  | _ => false

/-- connect (lines 135-328) as one atomic step at clock value now with the
given outcome of the join call.  Guards in source order: the in-flight
flag (139), the should-reconnect flag (144), the 5000 ms rate-limit window
against the last attempt timestamp (149-154), and the circuit breaker that
refuses once three failures accumulated, arming a counter-reset timer of
failureCount times 10 s capped at 60 s (156-164).  An admitted attempt
stamps the clock, shows connecting, waits the backoff, then either records
the connection and zeroes both counters (208-213) or records the error,
bumps the failure counter and, when auto-reconnect is on and attempts
remain, schedules a reconnect (312-324); the finally clause lowers the
in-flight flag either way. -/
def connect (opts : HookOptions) (s : HookState) (now : Nat)
    (success : Bool) : HookState × ConnectResult :=
  if s.isConnecting then (s, .droppedInFlight)
  else if !s.shouldReconnect then (s, .droppedDisabled)
  else if now - s.lastConnectionAttempt < 5000 then (s, .droppedRateLimit)
  else if 3 ≤ s.connectionFailureCount then
    let waitTime := min (s.connectionFailureCount * 10000) 60000
    ({ s with failureResetPending := some waitTime },
     .refusedCircuitBreaker waitTime)
  else
    let backoff := backoffDelayMs s.reconnectAttempts
    let s1 := { s with lastConnectionAttempt := now,
                       connectionStatus := ConnStatus.connecting,
                       errorMsg := none }
    if success then
      ({ s1 with roomRef := true, connectionStatus := .connected,
                 reconnectAttempts := 0, connectionFailureCount := 0,
                 isConnecting := false },
       .attempted backoff true)
    else
      let s2 := { s1 with errorMsg := some "Connection failed",
                          connectionStatus := ConnStatus.error,
                          connectionFailureCount :=
                            s1.connectionFailureCount + 1 }
      if opts.autoReconnect && s2.shouldReconnect
          && decide (s2.reconnectAttempts < opts.maxReconnectAttempts) then
        ({ scheduleReconnect s2 with isConnecting := false },
         .attempted backoff false)
      else
        ({ s2 with isConnecting := false }, .attempted backoff false)

/-- Firing of the armed reconnect timer (lines 337-342): clear the timer
ref, then call connect only when reconnection is still enabled. -/
def fireReconnectTimer (opts : HookOptions) (s : HookState) (now : Nat)
    (success : Bool) : HookState × Option ConnectResult :=
  if s.reconnectTimeoutPending then
    let s1 := { s with reconnectTimeoutPending := false }
    if s1.shouldReconnect then
      let r := connect opts s1 now success
      (r.1, some r.2)
    else (s1, none)
  else (s, none)

/-- Firing of the armed circuit-breaker reset (lines 160-162): zero the
failure counter; nothing else happens. -/
def fireFailureReset (s : HookState) : HookState :=
  match s.failureResetPending with
  | some _ => { s with connectionFailureCount := 0,
                       failureResetPending := none }
  | none => s

/-- cleanup (lines 106-133): disable reconnection, cancel the pending
reconnect timer, leave and drop the room.  It neither touches the
counters and the last-attempt stamp nor the observable status. -/
def cleanup (s : HookState) : HookState :=
  { s with shouldReconnect := false,
           reconnectTimeoutPending := false,
           roomRef := false,
           isConnecting := false }

/-- disconnect (lines 353-358): disable reconnection, show disconnected,
then clean up. -/
def hookDisconnect (s : HookState) : HookState :=
  cleanup { s with shouldReconnect := false,
                   connectionStatus := .disconnected }

/-- manualReconnect (lines 360-372) before its 500 ms timer fires: zero
both counters, enable reconnection, then call cleanup, which sets the
should-reconnect flag back to false. -/
def manualReconnect (s : HookState) : HookState :=
  cleanup { s with reconnectAttempts := 0, connectionFailureCount := 0,
                   shouldReconnect := true }

/-- Firing of manualReconnect's 500 ms timer (lines 367-371): call connect
only when reconnection is still enabled. -/
def fireManualReconnectTimer (opts : HookOptions) (s : HookState)
    (now : Nat) (success : Bool) : HookState × Option ConnectResult :=
  if s.shouldReconnect then
    let r := connect opts s now success
    (r.1, some r.2)
  else (s, none)

/-- sendMessage (lines 345-351): forward the message to the room only when
a room is held and the status is connected; otherwise do nothing. -/
def sendMessage (s : HookState) (type : String) (data : String) :
    Option (String × String) :=
  if s.roomRef = true ∧ s.connectionStatus = .connected then
    some (type, data)
  else none

/-!
Replay machinery for join/leave sequences, and the concrete simulated-clock
scenarios used by the temporal claims.
-/

/-- A session-lifecycle event hitting the room. -/
inductive RoomEvent
  | join (sid : String) (name : Option String) (now : Nat)
  | leave (sid : String)
deriving DecidableEq, Repr

/-- State effect of one lifecycle event (broadcasts discarded). -/
def applyEvent (s : MyState) : RoomEvent → MyState
  | .join sid name now => (onJoin s sid name now "").1
  | .leave sid => (onLeave s sid).1

/-- Replay of a sequence of lifecycle events. -/
def applyEvents (s : MyState) (evs : List RoomEvent) : MyState :=
  evs.foldl applyEvent s

/-- Well-formedness of a sequence: every join is by an identity not
currently in the room and every leave is by one currently in it (the
claims' no-overlapping-identities condition). -/
def validSeqB : MyState → List RoomEvent → Bool
  | _, [] => true
  | s, e :: rest =>
      (match e with
       | .join sid _ _ => (mapGet s.players sid).isNone
       | .leave sid => (mapGet s.players sid).isSome)
      && validSeqB (applyEvent s e) rest

/-- Number of joins in a sequence. -/
def joinCount (evs : List RoomEvent) : Nat :=
  evs.countP (fun e => match e with | .join _ _ _ => true | _ => false)

/-- Number of leaves in a sequence. -/
def leaveCount (evs : List RoomEvent) : Nat :=
  evs.countP (fun e => match e with | .leave _ => true | _ => false)

/-- The aggregate-state invariant of the claims: the stored count is the
size of the players map and the stored status is active exactly when the
count is at least 2, waiting otherwise. -/
def roomStateInv (s : MyState) : Prop :=
  s.playerCount = s.players.length ∧
  s.gameStatus = (if 2 ≤ s.playerCount then "active" else "waiting")

/-- Join events for a list of identities (no name option, clock 0). -/
def joinEvents (ids : List String) : List RoomEvent :=
  ids.map (fun i => RoomEvent.join i none 0)

/-- Hook options of the circuit-breaker scenario: auto-reconnect on,
maximum three automatic attempts. -/
def c4opts : HookOptions :=
  { autoReconnect := true, reconnectInterval := 10000,
    maxReconnectAttempts := 3 }

/-- Circuit-breaker scenario, simulated clock: initial connect request at
10000 ms fails, the scheduled retries fire at 20000 and 30000 ms and fail,
and the retry scheduled after the third failure fires at 40000 ms. -/
def c4step1 : HookState × ConnectResult :=
  connect c4opts initHookState 10000 false

def c4step2 : HookState × Option ConnectResult :=
  fireReconnectTimer c4opts c4step1.1 20000 false

def c4step3 : HookState × Option ConnectResult :=
  fireReconnectTimer c4opts c4step2.1 30000 false

def c4step4 : HookState × Option ConnectResult :=
  fireReconnectTimer c4opts c4step3.1 40000 false

/-- Manual-reconnect scenario: the initial connect request at 10000 ms
fails (default options, no auto-reconnect), leaving the hook in the error
state, and the user then invokes the manual reconnect action. -/
def c5errState : HookState :=
  (connect defaultHookOptions initHookState 10000 false).1

def c5afterManual : HookState :=
  manualReconnect c5errState

/-!
Concrete fixtures used by witnesses.
-/

/-- A participant fixture. -/
def wPlayerA : Player :=
  { name := "A", x := 0, y := 0, status := "idle", joinedAt := 0,
    color := "#3b82f6" }

/-- An unselected cell at the origin. -/
def wCellFree : HexCell := { q := 0, r := 0, selectedBy := "", color := "" }

/-- A cell at the origin selected by participant p1. -/
def wCellP1 : HexCell :=
  { q := 0, r := 0, selectedBy := "p1", color := "#3b82f6" }

/-- A one-participant room with a free origin cell. -/
def wRoom : MyState :=
  { players := [("p1", wPlayerA)], hexGrid := [(hexKeyOf 0 0, wCellFree)],
    gameStatus := "waiting", playerCount := 1 }

/-- A one-participant room whose origin cell is selected by p1. -/
def wRoomSel : MyState :=
  { players := [("p1", wPlayerA)], hexGrid := [(hexKeyOf 0 0, wCellP1)],
    gameStatus := "waiting", playerCount := 1 }

/-- A join-join-leave event sequence. -/
def c3wEvents : List RoomEvent :=
  [.join "alice" none 0, .join "bob" none 0, .leave "alice"]

/-!
Lemmas about the association-list map operations.
-/

theorem mapGet_mapSet_self {α : Type} (m : List (String × α)) (k : String)
    (v : α) : mapGet (mapSet m k v) k = some v := by
  induction m with
  | nil => simp [mapGet, mapSet]
  | cons hd tl ih =>
      obtain ⟨k', v'⟩ := hd
      by_cases h : k' = k
      · simp [mapGet, mapSet, h]
      · simp [mapGet, mapSet, h, ih]

theorem mapGet_mapSet_ne {α : Type} (m : List (String × α)) (k k' : String)
    (v : α) (h : k' ≠ k) : mapGet (mapSet m k v) k' = mapGet m k' := by
  have h2 : k ≠ k' := fun hh => h hh.symm
  induction m with
  | nil => simp [mapGet, mapSet, h2]
  | cons hd tl ih =>
      obtain ⟨k₀, v₀⟩ := hd
      by_cases h0 : k₀ = k
      · subst h0
        simp [mapGet, mapSet, h2]
      · simp [mapGet, mapSet, h0, ih]

theorem mapGet_mapDelete_self {α : Type} (m : List (String × α))
    (k : String) : mapGet (mapDelete m k) k = none := by
  induction m with
  | nil => simp [mapGet, mapDelete]
  | cons hd tl ih =>
      obtain ⟨k', v'⟩ := hd
      by_cases h : k' = k
      · simp [mapDelete, h, ih]
      · simp [mapGet, mapDelete, h, ih]

theorem mapGet_mapDelete_ne {α : Type} (m : List (String × α))
    (k k' : String) (h : k' ≠ k) :
    mapGet (mapDelete m k) k' = mapGet m k' := by
  have h2 : ¬ k = k' := fun hh => h hh.symm
  induction m with
  | nil => simp [mapGet, mapDelete]
  | cons hd tl ih =>
      obtain ⟨k₀, v₀⟩ := hd
      by_cases h0 : k₀ = k
      · subst h0
        simp [mapGet, mapDelete, h2, ih]
      · simp [mapGet, mapDelete, h0, ih]

theorem length_mapSet_fresh {α : Type} (m : List (String × α)) (k : String)
    (v : α) (h : mapGet m k = none) :
    (mapSet m k v).length = m.length + 1 := by
  induction m with
  | nil => simp [mapSet]
  | cons hd tl ih =>
      obtain ⟨k', v'⟩ := hd
      by_cases h0 : k' = k
      · simp [mapGet, h0] at h
      · simp only [mapGet, if_neg h0] at h
        simp [mapSet, h0, ih h]

theorem mapGet_eq_none_iff {α : Type} (m : List (String × α)) (k : String) :
    mapGet m k = none ↔ k ∉ m.map Prod.fst := by
  induction m with
  | nil => simp [mapGet]
  | cons hd tl ih =>
      obtain ⟨k', v'⟩ := hd
      by_cases h : k' = k
      · simp [mapGet, h]
      · have h2 : ¬ k = k' := fun hh => h hh.symm
        simp [mapGet, h, h2, ih]

theorem mapDelete_of_not_mem {α : Type} (m : List (String × α))
    (k : String) (h : mapGet m k = none) : mapDelete m k = m := by
  induction m with
  | nil => simp [mapDelete]
  | cons hd tl ih =>
      obtain ⟨k', v'⟩ := hd
      by_cases h0 : k' = k
      · simp [mapGet, h0] at h
      · simp only [mapGet, if_neg h0] at h
        simp [mapDelete, h0, ih h]

theorem length_mapDelete_present {α : Type} (m : List (String × α))
    (k : String) (hn : keysNodup m) (h : (mapGet m k).isSome) :
    (mapDelete m k).length + 1 = m.length := by
  induction m with
  | nil => simp [mapGet] at h
  | cons hd tl ih =>
      obtain ⟨k', v'⟩ := hd
      simp only [keysNodup, List.map_cons, List.nodup_cons] at hn
      by_cases h0 : k' = k
      · subst h0
        have habs : mapGet tl k' = none := (mapGet_eq_none_iff tl k').2 hn.1
        simp [mapDelete, mapDelete_of_not_mem tl k' habs]
      · simp only [mapGet, if_neg h0] at h
        simp [mapDelete, h0, ← ih hn.2 h]

theorem map_fst_mapSet_fresh {α : Type} (m : List (String × α))
    (k : String) (v : α) (h : mapGet m k = none) :
    (mapSet m k v).map Prod.fst = m.map Prod.fst ++ [k] := by
  induction m with
  | nil => simp [mapSet]
  | cons hd tl ih =>
      obtain ⟨k', v'⟩ := hd
      by_cases h0 : k' = k
      · simp [mapGet, h0] at h
      · simp only [mapGet, if_neg h0] at h
        simp [mapSet, h0, ih h]

theorem map_fst_mapSet_present {α : Type} (m : List (String × α))
    (k : String) (v w : α) (h : mapGet m k = some w) :
    (mapSet m k v).map Prod.fst = m.map Prod.fst := by
  induction m with
  | nil => simp [mapGet] at h
  | cons hd tl ih =>
      obtain ⟨k', v'⟩ := hd
      by_cases h0 : k' = k
      · subst h0
        simp [mapSet]
      · simp only [mapGet, if_neg h0] at h
        simp [mapSet, h0, ih h]

theorem mapDelete_sublist {α : Type} (m : List (String × α)) (k : String) :
    (mapDelete m k).Sublist m := by
  induction m with
  | nil => simp [mapDelete]
  | cons hd tl ih =>
      obtain ⟨k', v'⟩ := hd
      by_cases h : k' = k
      · simp only [mapDelete, if_pos h]
        exact ih.trans (List.sublist_cons_self _ _)
      · simp only [mapDelete, if_neg h]
        exact ih.cons₂ _

theorem keysNodup_mapSet {α : Type} (m : List (String × α)) (k : String)
    (v : α) (hn : keysNodup m) : keysNodup (mapSet m k v) := by
  unfold keysNodup at hn ⊢
  cases hg : mapGet m k with
  | none =>
      rw [map_fst_mapSet_fresh m k v hg]
      have hk : k ∉ m.map Prod.fst := (mapGet_eq_none_iff m k).1 hg
      simp only [List.nodup_append, List.nodup_cons, List.not_mem_nil,
        not_false_iff, List.nodup_nil, and_true, true_and]
      exact ⟨hn, fun x hx hxk => hk ((List.mem_singleton.1 hxk) ▸ hx)⟩
  | some w =>
      rw [map_fst_mapSet_present m k v w hg]
      exact hn

theorem keysNodup_mapDelete {α : Type} (m : List (String × α)) (k : String)
    (hn : keysNodup m) : keysNodup (mapDelete m k) :=
  List.Nodup.sublist ((mapDelete_sublist m k).map Prod.fst) hn

/-!
Helper lemmas about the connect step.
-/

theorem scheduleReconnect_lastConnectionAttempt (s : HookState) :
    (scheduleReconnect s).lastConnectionAttempt = s.lastConnectionAttempt := by
  unfold scheduleReconnect
  split <;> rfl

theorem scheduleReconnect_shouldReconnect (s : HookState) :
    (scheduleReconnect s).shouldReconnect = s.shouldReconnect := by
  unfold scheduleReconnect
  split <;> rfl

theorem connect_rateLimited (opts : HookOptions) (s : HookState) (now : Nat)
    (suc : Bool) (h1 : s.isConnecting = false) (h2 : s.shouldReconnect = true)
    (h3 : now - s.lastConnectionAttempt < 5000) :
    connect opts s now suc = (s, .droppedRateLimit) := by
  unfold connect
  rw [if_neg (by simp [h1]), if_neg (by simp [h2]), if_pos h3]

theorem connect_refused_of_guards (opts : HookOptions) (s : HookState)
    (now : Nat) (suc : Bool) (h1 : s.isConnecting = false)
    (h2 : s.shouldReconnect = true)
    (h3 : 5000 ≤ now - s.lastConnectionAttempt)
    (h4 : 3 ≤ s.connectionFailureCount) :
    connect opts s now suc =
      ({ s with failureResetPending := some (min (s.connectionFailureCount * 10000) 60000) },
       .refusedCircuitBreaker
         (min (s.connectionFailureCount * 10000) 60000)) := by
  unfold connect
  rw [if_neg (by simp [h1]), if_neg (by simp [h2]), if_neg (by omega),
    if_pos h4]

theorem connect_attempt_of_guards (opts : HookOptions) (s : HookState)
    (now : Nat) (suc : Bool) (h1 : s.isConnecting = false)
    (h2 : s.shouldReconnect = true)
    (h3 : 5000 ≤ now - s.lastConnectionAttempt)
    (h4 : s.connectionFailureCount < 3) :
    (connect opts s now suc).2 =
      .attempted (backoffDelayMs s.reconnectAttempts) suc := by
  unfold connect
  rw [if_neg (by simp [h1]), if_neg (by simp [h2]), if_neg (by omega),
    if_neg (by omega)]
  cases suc
  · simp only [Bool.false_eq_true, if_false]
    split <;> rfl
  · rfl

theorem connect_post_attempt (opts : HookOptions) (s : HookState)
    (now : Nat) (suc : Bool)
    (h : (connect opts s now suc).2.isAttempt = true) :
    (connect opts s now suc).1.lastConnectionAttempt = now ∧
    (connect opts s now suc).1.isConnecting = false ∧
    (connect opts s now suc).1.shouldReconnect = true := by
  by_cases h1 : s.isConnecting = true
  · unfold connect at h
    rw [if_pos h1] at h
    simp [ConnectResult.isAttempt] at h
  rw [Bool.not_eq_true] at h1
  by_cases h2 : s.shouldReconnect = true
  case neg =>
    rw [Bool.not_eq_true] at h2
    unfold connect at h
    rw [if_neg (by simp [h1]), if_pos (by simp [h2])] at h
    simp [ConnectResult.isAttempt] at h
  by_cases h3 : now - s.lastConnectionAttempt < 5000
  · unfold connect at h
    rw [if_neg (by simp [h1]), if_neg (by simp [h2]), if_pos h3] at h
    simp [ConnectResult.isAttempt] at h
  by_cases h4 : 3 ≤ s.connectionFailureCount
  · unfold connect at h
    rw [if_neg (by simp [h1]), if_neg (by simp [h2]), if_neg h3, if_pos h4]
      at h
    simp [ConnectResult.isAttempt] at h
  unfold connect
  rw [if_neg (by simp [h1]), if_neg (by simp [h2]), if_neg h3, if_neg h4]
  cases suc
  · simp only [Bool.false_eq_true, if_false]
    split
    · refine ⟨?_, rfl, ?_⟩
      · rw [show ∀ t : HookState, ({ t with isConnecting := false } :
            HookState).lastConnectionAttempt = t.lastConnectionAttempt
            from fun _ => rfl]
        rw [scheduleReconnect_lastConnectionAttempt]
      · rw [show ∀ t : HookState, ({ t with isConnecting := false } :
            HookState).shouldReconnect = t.shouldReconnect
            from fun _ => rfl]
        rw [scheduleReconnect_shouldReconnect]
        exact h2
    · exact ⟨rfl, rfl, h2⟩
  · exact ⟨rfl, rfl, h2⟩

theorem backoffDelayMs_one : backoffDelayMs 1 = 3000 := by
  unfold backoffDelayMs
  rw [if_pos (by norm_num), show (2000 : ℚ) * (3 / 2) ^ (1 : Nat) = 3000 by norm_num]
  exact min_eq_left (by norm_num)

theorem backoffDelayMs_two : backoffDelayMs 2 = 4500 := by
  unfold backoffDelayMs
  rw [if_pos (by norm_num), show (2000 : ℚ) * (3 / 2) ^ (2 : Nat) = 4500 by norm_num]
  exact min_eq_left (by norm_num)

theorem backoffDelayMs_three : backoffDelayMs 3 = 6750 := by
  unfold backoffDelayMs
  rw [if_pos (by norm_num), show (2000 : ℚ) * (3 / 2) ^ (3 : Nat) = 6750 by norm_num]
  exact min_eq_left (by norm_num)

theorem backoffDelayMs_four : backoffDelayMs 4 = 10125 := by
  unfold backoffDelayMs
  rw [if_pos (by norm_num), show (2000 : ℚ) * (3 / 2) ^ (4 : Nat) = 10125 by norm_num]
  exact min_eq_left (by norm_num)

theorem backoffDelayMs_five : backoffDelayMs 5 = 15000 := by
  unfold backoffDelayMs
  rw [if_pos (by norm_num)]
  exact min_eq_right (by norm_num)

/-- C10: for every message type and payload, sendMessage forwards the
message to the room exactly when the status is connected and a room
instance is held; in every other state it returns nothing and raises no
error. -/
theorem sendMessage_spec (s : HookState) (type data : String) :
    (sendMessage s type data = some (type, data) ↔
      (s.roomRef = true ∧ s.connectionStatus = ConnStatus.connected))
    ∧ (¬(s.roomRef = true ∧ s.connectionStatus = ConnStatus.connected) →
      sendMessage s type data = none) := by
  unfold sendMessage
  by_cases h : s.roomRef = true ∧ s.connectionStatus = ConnStatus.connected
  · simp [h]
  · simp [h]

/-- Witness for C10: in the initial disconnected state a move message is
silently not forwarded. -/
theorem sendMessage_spec_witness :
    ¬(initHookState.roomRef = true ∧
        initHookState.connectionStatus = ConnStatus.connected)
    ∧ sendMessage initHookState "move" "payload" = none :=
  ⟨by decide, (sendMessage_spec initHookState "move" "payload").2 (by decide)⟩

/-- C7, counterexample: the claimed backoff formula fails at attempt
number 0, where the code applies no delay at all instead of the formula
value 2000. -/
theorem backoffDelay_zero_counterexample :
    ¬ (backoffDelayMs 0 = min (2000 * (3 / 2 : ℚ) ^ (0 : Nat)) 15000) := by
  have h0 : backoffDelayMs 0 = 0 := by simp [backoffDelayMs]
  have h1 : min (2000 * (3 / 2 : ℚ) ^ (0 : Nat)) 15000 = 2000 := by
    rw [pow_zero, mul_one]
    exact min_eq_left (by norm_num)
  rw [h0, h1]
  norm_num

/-- C7, amended: for every reconnect-attempt count n at least 1 the delay
awaited before the attempt equals min(2000 times 1.5 to the n, 15000),
yielding 3000, 4500, 6750, 10125 and 15000 (capped) for n = 1..5, while
for n = 0 (the initial attempt) no delay is applied; an admitted connect
request indeed carries the delay for the current attempt count. -/
theorem backoffDelay_spec :
    (∀ n : Nat, 1 ≤ n →
      backoffDelayMs n = min (2000 * (3 / 2 : ℚ) ^ n) 15000)
    ∧ (backoffDelayMs 0 = 0 ∧ backoffDelayMs 1 = 3000 ∧
       backoffDelayMs 2 = 4500 ∧ backoffDelayMs 3 = 6750 ∧
       backoffDelayMs 4 = 10125 ∧ backoffDelayMs 5 = 15000)
    ∧ (∀ (opts : HookOptions) (s : HookState) (now : Nat) (suc : Bool),
      s.isConnecting = false → s.shouldReconnect = true →
      5000 ≤ now - s.lastConnectionAttempt →
      s.connectionFailureCount < 3 →
      (connect opts s now suc).2 =
        ConnectResult.attempted (backoffDelayMs s.reconnectAttempts) suc) := by
  refine ⟨?_, ⟨by simp [backoffDelayMs], backoffDelayMs_one,
    backoffDelayMs_two, backoffDelayMs_three, backoffDelayMs_four,
    backoffDelayMs_five⟩, ?_⟩
  · intro n hn
    unfold backoffDelayMs
    rw [if_pos (by omega)]
  · exact fun opts s now suc h1 h2 h3 h4 =>
      connect_attempt_of_guards opts s now suc h1 h2 h3 h4

/-- Witness for C7: the formula at n = 1 and the delay carried by the
initial admitted connect request. -/
theorem backoffDelay_spec_witness :
    (1 ≤ 1 ∧ backoffDelayMs 1 = min (2000 * (3 / 2 : ℚ) ^ (1 : Nat)) 15000)
    ∧ (connect defaultHookOptions initHookState 10000 true).2 =
        ConnectResult.attempted (backoffDelayMs initHookState.reconnectAttempts) true :=
  ⟨⟨le_refl 1, backoffDelay_spec.1 1 (le_refl 1)⟩,
   backoffDelay_spec.2.2 defaultHookOptions initHookState 10000 true
     (by decide) (by decide) (by decide) (by decide)⟩

/-- C5 (code bug): the manual reconnect action zeroes both counters as
claimed, but its call to cleanup immediately clears the should-reconnect
flag it has just set, so the delayed connect call is skipped: the hook
never enters the connecting state and no attempt is ever started.  Shown
at the concrete failing input (error state after one failed attempt) and
for every state. -/
theorem manualReconnect_never_reconnects :
    c5afterManual.reconnectAttempts = 0
    ∧ c5afterManual.connectionFailureCount = 0
    ∧ c5afterManual.shouldReconnect = false
    ∧ c5afterManual.connectionStatus = ConnStatus.error
    ∧ (∀ s : HookState, (manualReconnect s).shouldReconnect = false)
    ∧ (∀ (now : Nat) (suc : Bool),
        fireManualReconnectTimer defaultHookOptions c5afterManual now suc =
          (c5afterManual, none)) := by
  refine ⟨by decide, by decide, by decide, by decide, fun s => rfl, ?_⟩
  intro now suc
  unfold fireManualReconnectTimer
  rw [show c5afterManual.shouldReconnect = false from by decide]
  simp

/-- C4: with auto-reconnect on and maximum 3 attempts, three consecutive
failed attempts occur (at simulated times 10000, 20000, 30000 ms); the
retry scheduled after the third failure is refused by the circuit breaker
without starting an attempt, arming a cooldown of failureCount times 10 s
capped at 60 s, and firing that cooldown only zeroes the failure counter
without scheduling anything; in general any connect request passing the
earlier guards with three accumulated failures is refused this way. -/
theorem circuitBreaker_spec :
    (c4step1.2 = ConnectResult.attempted 0 false
     ∧ c4step2.2 = some (ConnectResult.attempted 3000 false)
     ∧ c4step3.2 = some (ConnectResult.attempted 4500 false)
     ∧ c4step3.1.connectionFailureCount = 3
     ∧ c4step3.1.reconnectTimeoutPending = true
     ∧ c4step4.2 = some (ConnectResult.refusedCircuitBreaker 30000)
     ∧ (ConnectResult.refusedCircuitBreaker 30000).isAttempt = false
     ∧ c4step4.1.reconnectTimeoutPending = false
     ∧ c4step4.1.failureResetPending = some (min (3 * 10000) 60000)
     ∧ (fireFailureReset c4step4.1).connectionFailureCount = 0
     ∧ fireFailureReset c4step4.1 = { c4step4.1 with connectionFailureCount := 0, failureResetPending := none })
    ∧ (∀ (s : HookState) (now : Nat) (suc : Bool),
        s.isConnecting = false → s.shouldReconnect = true →
        5000 ≤ now - s.lastConnectionAttempt →
        3 ≤ s.connectionFailureCount →
        connect c4opts s now suc =
          ({ s with failureResetPending := some (min (s.connectionFailureCount * 10000) 60000) },
           ConnectResult.refusedCircuitBreaker (min (s.connectionFailureCount * 10000) 60000))) := by
  refine ⟨⟨?_, ?_, ?_, by decide, by decide, by decide, by decide,
    by decide, by decide, by decide, by decide⟩,
    fun s now suc h1 h2 h3 h4 =>
      connect_refused_of_guards c4opts s now suc h1 h2 h3 h4⟩
  · have h : c4step1.2 = ConnectResult.attempted (backoffDelayMs 0) false :=
      rfl
    rwa [show backoffDelayMs 0 = 0 from by simp [backoffDelayMs]] at h
  · have h : c4step2.2 =
        some (ConnectResult.attempted (backoffDelayMs 1) false) := rfl
    rwa [backoffDelayMs_one] at h
  · have h : c4step3.2 =
        some (ConnectResult.attempted (backoffDelayMs 2) false) := rfl
    rwa [backoffDelayMs_two] at h

/-- Witness for C4: the general refusal rule applied to the state after
the third failure, at time 40000 ms. -/
theorem circuitBreaker_spec_witness :
    c4step3.1.isConnecting = false ∧ c4step3.1.shouldReconnect = true
    ∧ 5000 ≤ 40000 - c4step3.1.lastConnectionAttempt
    ∧ 3 ≤ c4step3.1.connectionFailureCount
    ∧ connect c4opts c4step3.1 40000 false =
        ({ c4step3.1 with failureResetPending := some (min (c4step3.1.connectionFailureCount * 10000) 60000) },
         ConnectResult.refusedCircuitBreaker (min (c4step3.1.connectionFailureCount * 10000) 60000)) :=
  ⟨by decide, by decide, by decide, by decide,
   circuitBreaker_spec.2 c4step3.1 40000 false (by decide) (by decide)
     (by decide) (by decide)⟩

/-- C6: when a connect request at time t1 starts an actual attempt, a
second request less than 5000 ms later is dropped by the rate limiter:
exactly one attempt is started, the state is left untouched and nothing
is queued. -/
theorem rateLimit_spec (opts : HookOptions) (s : HookState) (t1 t2 : Nat)
    (o1 o2 : Bool)
    (hAtt : (connect opts s t1 o1).2.isAttempt = true)
    (h12 : t1 ≤ t2) (hlt : t2 < t1 + 5000) :
    connect opts (connect opts s t1 o1).1 t2 o2 =
      ((connect opts s t1 o1).1, ConnectResult.droppedRateLimit) := by
  obtain ⟨hla, hic, hsr⟩ := connect_post_attempt opts s t1 o1 hAtt
  exact connect_rateLimited opts _ t2 o2 hic hsr (by rw [hla]; omega)

/-- Witness for C6: a successful attempt at 10000 ms followed by a second
request at 12000 ms, which is dropped. -/
theorem rateLimit_spec_witness :
    (connect defaultHookOptions initHookState 10000 true).2.isAttempt = true
    ∧ (10000 : Nat) ≤ 12000 ∧ (12000 : Nat) < 10000 + 5000
    ∧ connect defaultHookOptions (connect defaultHookOptions initHookState 10000 true).1 12000 true =
        ((connect defaultHookOptions initHookState 10000 true).1, ConnectResult.droppedRateLimit) :=
  ⟨by decide, by decide, by decide,
   rateLimit_spec defaultHookOptions initHookState 10000 12000 true true
     (by decide) (by decide) (by decide)⟩

/-!
Reduction lemmas for the intent handlers.
-/

theorem hexSelect_reduce_deselect (s : MyState) (sid : String) (q r : Int)
    (cell : HexCell) (p : Player)
    (hc : mapGet s.hexGrid (hexKeyOf q r) = some cell)
    (hp : mapGet s.players sid = some p) (hsel : cell.selectedBy = sid) :
    handleHexSelect s sid q r =
      ({ s with hexGrid := mapSet s.hexGrid (hexKeyOf q r) { cell with selectedBy := "", color := "" } },
       [OutEvent.hexUpdate q r "" "" ""]) := by
  unfold handleHexSelect
  rw [hc, hp]
  dsimp only
  rw [if_pos hsel]
  simp

theorem hexSelect_reduce_select (s : MyState) (sid : String) (q r : Int)
    (cell : HexCell) (p : Player)
    (hc : mapGet s.hexGrid (hexKeyOf q r) = some cell)
    (hp : mapGet s.players sid = some p) (hsel : ¬ cell.selectedBy = sid) :
    handleHexSelect s sid q r =
      ({ s with hexGrid := mapSet s.hexGrid (hexKeyOf q r) { cell with selectedBy := sid, color := p.color } },
       [OutEvent.hexUpdate q r sid p.color (if sid = "" then "" else p.name)]) := by
  unfold handleHexSelect
  rw [hc, hp]
  dsimp only
  rw [if_neg hsel]

theorem hexSelect_reduce_miss (s : MyState) (sid : String) (q r : Int)
    (h : mapGet s.hexGrid (hexKeyOf q r) = none ∨
      mapGet s.players sid = none) :
    handleHexSelect s sid q r = (s, []) := by
  rcases h with h | h
  · unfold handleHexSelect
    rw [h]
  · unfold handleHexSelect
    cases hg : mapGet s.hexGrid (hexKeyOf q r) <;> rw [h]

theorem handleMove_reduce (s : MyState) (sid : String) (x y : ℚ)
    (p : Player) (hp : mapGet s.players sid = some p) :
    handleMove s sid x y =
      ({ s with players := mapSet s.players sid { p with x := x, y := y, status := "moving" } },
       []) := by
  unfold handleMove
  rw [hp]

theorem handleStatus_reduce (s : MyState) (sid : String) (v : String)
    (p : Player) (hp : mapGet s.players sid = some p) :
    handleStatus s sid v =
      ({ s with players := mapSet s.players sid { p with status := v } },
       []) := by
  unfold handleStatus
  rw [hp]

/-- C1: a hexSelect intent for an existing cell by a sender with an
existing participant toggles the sender's own cell to unoccupied and
otherwise sets occupant and color to the sender, stealing regardless of
any prior occupant, and broadcasts a hexUpdate carrying the new occupancy
and color with the occupant name when occupied and empty otherwise,
leaving players, count, status and every other cell untouched; when the
cell or the participant is missing nothing changes and nothing is
broadcast. -/
theorem hexSelect_spec (s : MyState) (sid : String) (q r : Int) :
    (∀ cell p, mapGet s.hexGrid (hexKeyOf q r) = some cell →
      mapGet s.players sid = some p →
      (handleHexSelect s sid q r).1.players = s.players
      ∧ (handleHexSelect s sid q r).1.gameStatus = s.gameStatus
      ∧ (handleHexSelect s sid q r).1.playerCount = s.playerCount
      ∧ (∀ k2, k2 ≠ hexKeyOf q r →
          mapGet (handleHexSelect s sid q r).1.hexGrid k2 =
            mapGet s.hexGrid k2)
      ∧ (cell.selectedBy = sid →
          mapGet (handleHexSelect s sid q r).1.hexGrid (hexKeyOf q r) =
            some { cell with selectedBy := "", color := "" }
          ∧ (handleHexSelect s sid q r).2 =
              [OutEvent.hexUpdate q r "" "" ""])
      ∧ (cell.selectedBy ≠ sid →
          mapGet (handleHexSelect s sid q r).1.hexGrid (hexKeyOf q r) =
            some { cell with selectedBy := sid, color := p.color }
          ∧ (handleHexSelect s sid q r).2 =
              [OutEvent.hexUpdate q r sid p.color
                 (if sid = "" then "" else p.name)]))
    ∧ ((mapGet s.hexGrid (hexKeyOf q r) = none ∨
        mapGet s.players sid = none) →
      handleHexSelect s sid q r = (s, [])) := by
  constructor
  · intro cell p hc hp
    by_cases hsel : cell.selectedBy = sid
    · rw [hexSelect_reduce_deselect s sid q r cell p hc hp hsel]
      refine ⟨rfl, rfl, rfl, ?_, fun _ => ⟨?_, rfl⟩,
        fun hne => absurd hsel hne⟩
      · exact fun k2 hk2 => mapGet_mapSet_ne _ _ _ _ hk2
      · exact mapGet_mapSet_self _ _ _
    · rw [hexSelect_reduce_select s sid q r cell p hc hp hsel]
      refine ⟨rfl, rfl, rfl, ?_, fun hs => absurd hs hsel,
        fun _ => ⟨?_, rfl⟩⟩
      · exact fun k2 hk2 => mapGet_mapSet_ne _ _ _ _ hk2
      · exact mapGet_mapSet_self _ _ _
  · exact hexSelect_reduce_miss s sid q r

/-- Witness for C1: in a one-participant room, p1 selecting the free
origin cell sets occupancy and color to p1 and broadcasts the update
with p1's name. -/
theorem hexSelect_spec_witness :
    mapGet wRoom.hexGrid (hexKeyOf 0 0) = some wCellFree
    ∧ mapGet wRoom.players "p1" = some wPlayerA
    ∧ wCellFree.selectedBy ≠ "p1"
    ∧ (mapGet (handleHexSelect wRoom "p1" 0 0).1.hexGrid (hexKeyOf 0 0) =
         some { wCellFree with selectedBy := "p1", color := wPlayerA.color }
       ∧ (handleHexSelect wRoom "p1" 0 0).2 =
           [OutEvent.hexUpdate 0 0 "p1" wPlayerA.color
              (if "p1" = "" then "" else wPlayerA.name)]) :=
  ⟨by decide, by decide, by decide,
   ((hexSelect_spec wRoom "p1" 0 0).1 wCellFree wPlayerA (by decide)
     (by decide)).2.2.2.2.2 (by decide)⟩

/-- C8: a move or status intent whose sender has no participant leaves
the room state exactly unchanged and produces no broadcast; a move intent
from an existing participant sets that participant's position to the
payload and status to moving, touching nothing else and broadcasting
nothing. -/
theorem moveStatus_spec (s : MyState) (sid : String) (x y : ℚ)
    (v : String) :
    (mapGet s.players sid = none →
      handleMove s sid x y = (s, []) ∧ handleStatus s sid v = (s, []))
    ∧ (∀ p, mapGet s.players sid = some p →
      (handleMove s sid x y).2 = []
      ∧ mapGet (handleMove s sid x y).1.players sid =
          some { p with x := x, y := y, status := "moving" }
      ∧ (∀ k, k ≠ sid →
          mapGet (handleMove s sid x y).1.players k = mapGet s.players k)
      ∧ (handleMove s sid x y).1.hexGrid = s.hexGrid
      ∧ (handleMove s sid x y).1.gameStatus = s.gameStatus
      ∧ (handleMove s sid x y).1.playerCount = s.playerCount) := by
  constructor
  · intro h
    constructor
    · unfold handleMove
      rw [h]
    · unfold handleStatus
      rw [h]
  · intro p hp
    rw [handleMove_reduce s sid x y p hp]
    exact ⟨rfl, mapGet_mapSet_self _ _ _,
      fun k hk => mapGet_mapSet_ne _ _ _ _ hk, rfl, rfl, rfl⟩

/-- Witness for C8: an unknown sender's move and status intents on the
one-participant room change nothing, and p1's move updates p1. -/
theorem moveStatus_spec_witness :
    (mapGet wRoom.players "zz" = none
     ∧ handleMove wRoom "zz" 5 6 = (wRoom, [])
     ∧ handleStatus wRoom "zz" "active" = (wRoom, []))
    ∧ mapGet (handleMove wRoom "p1" 5 6).1.players "p1" =
        some { wPlayerA with x := 5, y := 6, status := "moving" } :=
  ⟨⟨by decide, ((moveStatus_spec wRoom "zz" 5 6 "active").1 (by decide)).1,
    ((moveStatus_spec wRoom "zz" 5 6 "active").1 (by decide)).2⟩,
   (((moveStatus_spec wRoom "p1" 5 6 "active").2 wPlayerA
     (by decide)).2).1⟩

/-- C9: removing a participant deletes exactly that entry, recomputes the
count as the map size and the status by the below-2 rule, leaves every
other participant's lookup unchanged, and modifies no cell: in
particular, cells still occupied by the departed participant are kept. -/
theorem leave_frame_spec (s : MyState) (sid : String) :
    mapGet (onLeave s sid).1.players sid = none
    ∧ (∀ k, k ≠ sid →
        mapGet (onLeave s sid).1.players k = mapGet s.players k)
    ∧ (onLeave s sid).1.hexGrid = s.hexGrid
    ∧ (onLeave s sid).1.playerCount = (onLeave s sid).1.players.length
    ∧ (onLeave s sid).1.gameStatus =
        (if (onLeave s sid).1.playerCount < 2 then "waiting"
         else s.gameStatus)
    ∧ (∀ k2 cell, mapGet s.hexGrid k2 = some cell →
        mapGet (onLeave s sid).1.hexGrid k2 = some cell) :=
  ⟨mapGet_mapDelete_self s.players sid,
   fun k hk => mapGet_mapDelete_ne s.players sid k hk,
   rfl, rfl, rfl, fun _ _ h => h⟩

/-- Witness for C9: p1 leaves the room where p1 still occupies the origin
cell; the other lookup is untouched and the ghost cell keeps occupant p1. -/
theorem leave_frame_spec_witness :
    ("zz" : String) ≠ "p1"
    ∧ mapGet (onLeave wRoomSel "p1").1.players "zz" =
        mapGet wRoomSel.players "zz"
    ∧ mapGet wRoomSel.hexGrid (hexKeyOf 0 0) = some wCellP1
    ∧ mapGet (onLeave wRoomSel "p1").1.hexGrid (hexKeyOf 0 0) =
        some wCellP1 :=
  ⟨by decide, (leave_frame_spec wRoomSel "p1").2.1 "zz" (by decide),
   by decide,
   (leave_frame_spec wRoomSel "p1").2.2.2.2.2 (hexKeyOf 0 0) wCellP1
     (by decide)⟩

/-!
Lemmas for join-only replays and the color-assignment claim.
-/

theorem mapGet_applyEvents_joins_ne (ids : List String) (s : MyState)
    (key : String) (h : key ∉ ids) :
    mapGet (applyEvents s (joinEvents ids)).players key =
      mapGet s.players key := by
  induction ids generalizing s with
  | nil => rfl
  | cons i rest ih =>
      have hki : key ≠ i := fun hh => h (hh ▸ List.mem_cons_self i rest)
      have hrest : key ∉ rest := fun hr => h (List.mem_cons_of_mem i hr)
      show mapGet (applyEvents (applyEvent s (.join i none 0))
        (joinEvents rest)).players key = mapGet s.players key
      rw [ih (applyEvent s (.join i none 0)) hrest]
      show mapGet (mapSet s.players i _) key = mapGet s.players key
      exact mapGet_mapSet_ne _ _ _ _ hki

theorem joins_color (ids : List String) : ∀ (s : MyState),
    ids.Nodup → (∀ i ∈ ids, mapGet s.players i = none) →
    ∀ k (hk : k < ids.length),
      ∃ p, mapGet (applyEvents s (joinEvents ids)).players
          (ids.get ⟨k, hk⟩) = some p
        ∧ p.color = playerColors.getD
            ((s.players.length + k) % playerColors.length) "" := by
  induction ids with
  | nil =>
      intro s _ _ k hk
      exact absurd hk (by simp)
  | cons i rest ih =>
      intro s hnd hfresh k hk
      have hifresh : mapGet s.players i = none :=
        hfresh i (List.mem_cons_self i rest)
      have hinotin : i ∉ rest := (List.nodup_cons.1 hnd).1
      have hndrest : rest.Nodup := (List.nodup_cons.1 hnd).2
      cases k with
      | zero =>
          have hone : mapGet (applyEvents (applyEvent s (.join i none 0))
              (joinEvents rest)).players i =
              some { name := "Player_" ++ i.take 6, x := 0, y := 0, status := "idle", joinedAt := 0, color := playerColors.getD (s.players.length % playerColors.length) "" } := by
            rw [mapGet_applyEvents_joins_ne rest _ i hinotin]
            exact mapGet_mapSet_self _ _ _
          exact ⟨_, hone, rfl⟩
      | succ j =>
          have hj : j < rest.length := by simpa using hk
          have hfresh2 : ∀ x ∈ rest,
              mapGet (applyEvent s (.join i none 0)).players x = none := by
            intro x hx
            have hxi : x ≠ i := fun hh => hinotin (hh ▸ hx)
            show mapGet (mapSet s.players i _) x = none
            rw [mapGet_mapSet_ne _ _ _ _ hxi]
            exact hfresh x (List.mem_cons_of_mem i hx)
          have hlen : (applyEvent s (.join i none 0)).players.length =
              s.players.length + 1 := by
            show (mapSet s.players i _).length = _
            exact length_mapSet_fresh _ _ _ hifresh
          obtain ⟨p, hp1, hp2⟩ :=
            ih (applyEvent s (.join i none 0)) hndrest hfresh2 j hj
          refine ⟨p, hp1, ?_⟩
          rw [hp2, hlen,
            show s.players.length + 1 + j = s.players.length + (j + 1) from
              by omega]

/-- C2, counterexample: the second participant ever to join (0-indexed
k = 1) receives palette entry 0, not palette entry 1 mod 8, when the
first participant left before the second joined, while the same join
order with no leave yields palette entry 1: the color depends on leave
timing and is not determined by join order. -/
theorem colorAssignment_counterexample :
    (mapGet (applyEvents initMyState
        [RoomEvent.join "aaaaaa" none 0, RoomEvent.leave "aaaaaa",
         RoomEvent.join "bbbbbb" none 0]).players "bbbbbb").map
        Player.color =
      some (playerColors.getD (0 % playerColors.length) "")
    ∧ (mapGet (applyEvents initMyState
        [RoomEvent.join "aaaaaa" none 0,
         RoomEvent.join "bbbbbb" none 0]).players "bbbbbb").map
        Player.color =
      some (playerColors.getD (1 % playerColors.length) "")
    ∧ playerColors.getD (0 % playerColors.length) "" ≠
        playerColors.getD (1 % playerColors.length) "" :=
  ⟨by decide, by decide, by decide⟩

/-- C2, amended: the joining participant receives the palette entry
indexed by the current players-map size mod 8; hence in a fresh room with
joins only (no interleaved leaves) the k-th (0-indexed) joiner receives
palette entry k mod 8. -/
theorem colorAssignment_spec (ids : List String) (hnd : ids.Nodup)
    (k : Nat) (hk : k < ids.length) :
    ∃ p, mapGet (applyEvents initMyState (joinEvents ids)).players
        (ids.get ⟨k, hk⟩) = some p
      ∧ p.color = playerColors.getD (k % playerColors.length) "" := by
  have h := joins_color ids initMyState hnd (fun i _ => rfl) k hk
  rw [show initMyState.players.length = 0 from rfl, Nat.zero_add] at h
  exact h

/-- Witness for C2: in a two-join fresh room the joiner at index 1 holds
palette entry 1 mod 8. -/
theorem colorAssignment_spec_witness :
    (["aa", "bb"] : List String).Nodup
    ∧ (1 : Nat) < (["aa", "bb"] : List String).length
    ∧ ∃ p, mapGet (applyEvents initMyState
          (joinEvents ["aa", "bb"])).players
          ((["aa", "bb"] : List String).get ⟨1, by decide⟩) = some p
        ∧ p.color = playerColors.getD (1 % playerColors.length) "" :=
  ⟨by decide, by decide,
   colorAssignment_spec ["aa", "bb"] (by decide) 1 (by decide)⟩

/-!
Lemmas for the join/leave aggregate-state invariant.
-/

theorem validSeqB_append (l1 l2 : List RoomEvent) : ∀ (s : MyState),
    validSeqB s (l1 ++ l2) = true → validSeqB s l1 = true := by
  induction l1 with
  | nil => intro s _; rfl
  | cons e rest ih =>
      intro s h
      rw [List.cons_append] at h
      unfold validSeqB at h ⊢
      rw [Bool.and_eq_true] at h ⊢
      exact ⟨h.1, ih _ h.2⟩

theorem onJoin_step (s : MyState) (sid : String) (nameOpt : Option String)
    (now : Nat) (roomId : String) (hfresh : mapGet s.players sid = none)
    (hinv : roomStateInv s) (hn : keysNodup s.players) :
    roomStateInv (onJoin s sid nameOpt now roomId).1
    ∧ keysNodup (onJoin s sid nameOpt now roomId).1.players
    ∧ (onJoin s sid nameOpt now roomId).1.playerCount = s.playerCount + 1 := by
  refine ⟨⟨rfl, rfl⟩, keysNodup_mapSet _ _ _ hn, ?_⟩
  show (mapSet s.players sid _).length = s.playerCount + 1
  rw [length_mapSet_fresh _ _ _ hfresh, hinv.1]

theorem onLeave_step (s : MyState) (sid : String)
    (hpres : (mapGet s.players sid).isSome)
    (hinv : roomStateInv s) (hn : keysNodup s.players) :
    roomStateInv (onLeave s sid).1
    ∧ keysNodup (onLeave s sid).1.players
    ∧ (onLeave s sid).1.playerCount + 1 = s.playerCount := by
  have hlen : (mapDelete s.players sid).length + 1 = s.players.length :=
    length_mapDelete_present _ _ hn hpres
  have hcount : (onLeave s sid).1.playerCount + 1 = s.playerCount := by
    show (mapDelete s.players sid).length + 1 = s.playerCount
    rw [hlen, hinv.1]
  refine ⟨⟨rfl, ?_⟩, keysNodup_mapDelete _ _ hn, hcount⟩
  show (if (mapDelete s.players sid).length < 2 then "waiting"
      else s.gameStatus) =
    if 2 ≤ (mapDelete s.players sid).length then "active" else "waiting"
  by_cases h2 : (mapDelete s.players sid).length < 2
  · rw [if_pos h2, if_neg (by omega)]
  · rw [if_neg h2, if_pos (by omega), hinv.2,
      if_pos (by rw [hinv.1, ← hlen]; omega)]

theorem replay_invariant : ∀ (evs : List RoomEvent) (s : MyState),
    roomStateInv s → keysNodup s.players → validSeqB s evs = true →
    roomStateInv (applyEvents s evs)
    ∧ keysNodup (applyEvents s evs).players
    ∧ (applyEvents s evs).playerCount + leaveCount evs =
        s.playerCount + joinCount evs := by
  intro evs
  induction evs with
  | nil =>
      intro s hinv hn _
      exact ⟨hinv, hn, by simp [applyEvents, joinCount, leaveCount]⟩
  | cons e rest ih =>
      intro s hinv hn hv
      cases e with
      | join sid nameOpt now =>
          unfold validSeqB at hv
          rw [Bool.and_eq_true] at hv
          have hfresh : mapGet s.players sid = none := by
            have := hv.1
            simpa [Option.isNone_iff_eq_none] using this
          obtain ⟨hinv1, hn1, hcnt1⟩ :=
            onJoin_step s sid nameOpt now "" hfresh hinv hn
          obtain ⟨hinv2, hn2, hcnt2⟩ :=
            ih (applyEvent s (.join sid nameOpt now)) hinv1 hn1 hv.2
          refine ⟨hinv2, hn2, ?_⟩
          have hj : joinCount (RoomEvent.join sid nameOpt now :: rest) =
              joinCount rest + 1 := by simp [joinCount]
          have hl : leaveCount (RoomEvent.join sid nameOpt now :: rest) =
              leaveCount rest := by simp [leaveCount]
          have hcnt1b : (applyEvent s (RoomEvent.join sid nameOpt now)).playerCount = s.playerCount + 1 := hcnt1
          show (applyEvents (applyEvent s (RoomEvent.join sid nameOpt now))
              rest).playerCount +
              leaveCount (RoomEvent.join sid nameOpt now :: rest) =
            s.playerCount + joinCount (RoomEvent.join sid nameOpt now :: rest)
          rw [hj, hl]
          omega
      | leave sid =>
          unfold validSeqB at hv
          rw [Bool.and_eq_true] at hv
          obtain ⟨hinv1, hn1, hcnt1⟩ := onLeave_step s sid hv.1 hinv hn
          obtain ⟨hinv2, hn2, hcnt2⟩ :=
            ih (applyEvent s (.leave sid)) hinv1 hn1 hv.2
          refine ⟨hinv2, hn2, ?_⟩
          have hj : joinCount (RoomEvent.leave sid :: rest) =
              joinCount rest := by simp [joinCount]
          have hl : leaveCount (RoomEvent.leave sid :: rest) =
              leaveCount rest + 1 := by simp [leaveCount]
          have hcnt1b : (applyEvent s (RoomEvent.leave sid)).playerCount + 1 = s.playerCount := hcnt1
          show (applyEvents (applyEvent s (RoomEvent.leave sid))
              rest).playerCount + leaveCount (RoomEvent.leave sid :: rest) =
            s.playerCount + joinCount (RoomEvent.leave sid :: rest)
          rw [hj, hl]
          omega

/-- C3: for every well-formed sequence of joins and leaves from a fresh
room, after every prefix the stored count equals the size of the players
map and the status is active exactly when the count is at least 2 and
waiting otherwise; at the end the count equals the number of joins minus
the number of leaves. -/
theorem joinLeave_invariant (evs : List RoomEvent)
    (hv : validSeqB initMyState evs = true) :
    (∀ pre suf, evs = pre ++ suf →
      roomStateInv (applyEvents initMyState pre))
    ∧ (applyEvents initMyState evs).playerCount =
        joinCount evs - leaveCount evs
    ∧ leaveCount evs ≤ joinCount evs := by
  have hinv0 : roomStateInv initMyState := ⟨rfl, rfl⟩
  have hn0 : keysNodup initMyState.players := by simp [keysNodup, initMyState]
  constructor
  · intro pre suf hsplit
    have hvpre : validSeqB initMyState pre = true :=
      validSeqB_append pre suf initMyState (hsplit ▸ hv)
    exact (replay_invariant pre initMyState hinv0 hn0 hvpre).1
  · have h := (replay_invariant evs initMyState hinv0 hn0 hv).2.2
    rw [show initMyState.playerCount = 0 from rfl] at h
    constructor <;> omega

/-- Witness for C3: the sequence join, join, leave is well formed and ends
with count 2 minus 1. -/
theorem joinLeave_invariant_witness :
    validSeqB initMyState c3wEvents = true
    ∧ (applyEvents initMyState c3wEvents).playerCount =
        joinCount c3wEvents - leaveCount c3wEvents
    ∧ leaveCount c3wEvents ≤ joinCount c3wEvents :=
  ⟨by decide, (joinLeave_invariant c3wEvents (by decide)).2.1,
   (joinLeave_invariant c3wEvents (by decide)).2.2⟩
